import Mathlib

/-!
Shallow embedding of `src/redditsentiment.py`, a single-file Streamlit
pipeline: input → fetch → filter → score → save → plot → package → display.

Strings from the Python program are modelled as `List Char`; Python cell
values (which may fail to be strings) as `PyVal`; the external sentiment
analyzer as an arbitrary function from strings to score structures; the
external Reddit API as a function from subreddit names to fetch outcomes
that may raise an exception partway through the post listing.
-/

/-- Python strings are modelled as lists of characters. -/
abbrev Str := List Char

/-- A Python cell value: a string, an integer, or the missing value `None`.
Models the fact that a dataframe text cell need not be a string. -/
inductive PyVal where
  | str (s : Str)
  | int (n : Int)
  | none
deriving DecidableEq

/-- The Python builtin `str(x)`: total conversion of any value to a string.
`str` of a string is the string itself. -/
def py_str : PyVal → Str
  | .str s => s
  | .int n => (toString n).toList
  | .none => "None".toList

/-- The four polarity scores returned by the sentiment analyzer
(`polarity_scores`), modelled over ℚ. -/
structure Scores where
  compound : ℚ
  neg : ℚ
  neu : ℚ
  pos : ℚ
deriving DecidableEq

/-- The function `classify_sentiment` from the source (lines 106-112): map a compound
score to one of three labels via fixed thresholds. -/
def classify_sentiment (score : ℚ) : String :=
  if score ≥ 5/100 then "positive"
  else if score ≤ -(5/100) then "negative"
  else "neutral"

/-- Case-insensitive lowering of a string, modelling Python `str.lower()`. -/
def py_lower (s : Str) : Str := s.map Char.toLower

/-- Substring containment: `needle` occurs contiguously inside `hay`.
Models the Python expression `needle in hay` on strings. -/
def is_substring (needle hay : Str) : Bool := decide (needle <:+: hay)

/-- The title filter from the source (lines 62-63): keep a post iff its
lowercased title contains some keyword, lowercased, as a substring. -/
def title_matches (keywords : List Str) (title : Str) : Bool :=
  let title_lower := py_lower title
  keywords.any (fun k => is_substring (py_lower k) title_lower)

theorem is_substring_iff (n h : Str) : is_substring n h = true ↔ n <:+: h :=
  decide_eq_true_iff

/-- C1: for every compound score `s`, `classify_sentiment` returns
"positive" iff `s ≥ 0.05`, "negative" iff `s ≤ -0.05`, and "neutral"
otherwise; the boundary inputs `0.05` and `-0.05` are classified
"positive" and "negative" respectively. -/
theorem classify_sentiment_spec (s : ℚ) :
    (classify_sentiment s = "positive" ↔ s ≥ 5/100)
    ∧ (classify_sentiment s = "negative" ↔ s ≤ -(5/100))
    ∧ (classify_sentiment s = "neutral" ↔ (¬ s ≥ 5/100 ∧ ¬ s ≤ -(5/100)))
    ∧ classify_sentiment (5/100) = "positive"
    ∧ classify_sentiment (-(5/100)) = "negative" := by
  have hlt : ¬ ((5:ℚ)/100 ≤ -(5/100)) := by norm_num
  refine ⟨?_, ?_, ?_, ?_, ?_⟩
  · unfold classify_sentiment
    split
    · simp_all
    · split <;> simp_all
  · unfold classify_sentiment
    split
    · rename_i hge
      constructor
      · intro hc; exact absurd hc (by decide)
      · intro hle; exact absurd (le_trans hge hle) (by norm_num)
    · split <;> simp_all
  · unfold classify_sentiment
    split
    · simp_all
    · split <;> simp_all
  · unfold classify_sentiment
    norm_num
  · unfold classify_sentiment
    norm_num

/-- C2: the filter keeps a post iff the lowercased title contains some
lowercased keyword as a substring; in particular "Streamlit is great" with
keywords ["streamlit"] is kept and "Django rocks" is not. -/
theorem title_matches_spec :
    (∀ (keywords : List Str) (title : Str),
      title_matches keywords title = true
        ↔ ∃ k ∈ keywords, py_lower k <:+: py_lower title)
    ∧ title_matches ["streamlit".toList] "Streamlit is great".toList = true
    ∧ title_matches ["streamlit".toList] "Django rocks".toList = false := by
  refine ⟨?_, by decide, by decide⟩
  intro keywords title
  unfold title_matches
  simp only [List.any_eq_true, is_substring_iff]

/-- A fetched Reddit comment after full expansion: its body and creation
timestamp. -/
structure Comment where
  body : PyVal
  created_utc : Int
deriving DecidableEq

/-- A fetched Reddit post: title, url and its fully expanded comment list
(after `replace_more(limit=0)` followed by `.list()`). -/
structure Post where
  title : Str
  url : Str
  comments : List Comment
deriving DecidableEq

/-- One collected record, as appended to `all_data` (lines 67-73). -/
structure Record where
  text : PyVal
  title : Str
  url : Str
  subreddit : Str
  date : Int
deriving DecidableEq

/-- The record built for one (post, comment) pair (lines 67-73);
`datetime.fromtimestamp` is modelled as carrying the timestamp. -/
def record_of (subreddit_name : Str) (post : Post) (c : Comment) : Record :=
  { text := c.body, title := post.title, url := post.url,
    subreddit := subreddit_name, date := c.created_utc }

/-- The records appended for a single post (lines 61-73): nothing when the
title filter rejects it, otherwise one record per expanded comment. -/
def process_post (keywords : List Str) (subreddit_name : Str) (post : Post) :
    List Record :=
  if title_matches keywords post.title then
    post.comments.map (record_of subreddit_name post)
  else []

/-- Outcome of iterating the post listing of one subreddit inside the `try`
block (lines 58-73). The listing is lazy and `replace_more` performs
network calls, so an exception can interrupt the loop after some posts
have already been processed and their records appended: `failAfter posts e`
models an exception `e` raised after the posts in `posts` were processed. -/
inductive FetchOutcome where
  | ok (posts : List Post)
  | failAfter (posts : List Post) (err : Str)

/-- The posts a fetch outcome successfully delivered before any failure. -/
def FetchOutcome.posts : FetchOutcome → List Post
  | .ok ps => ps
  | .failAfter ps _ => ps

/-- Whether the fetch outcome raised no exception. -/
def FetchOutcome.isOk : FetchOutcome → Bool
  | .ok _ => true
  | .failAfter _ _ => false

/-- Processing one subreddit (the `try`/`except` body, lines 57-75):
the records appended to `all_data`, and the reported error, if any,
as the pair (subreddit name, exception text) written by `st.write`. -/
def run_subreddit (keywords : List Str) (name : Str) :
    FetchOutcome → List Record × Option (Str × Str)
  | .ok posts => (posts.flatMap (process_post keywords name), none)
  | .failAfter posts e =>
      (posts.flatMap (process_post keywords name), some (name, e))

/-- The whole collection loop (lines 54-75): fold over the subreddit list,
accumulating `all_data` and the list of reported per-subreddit errors.
`world` models the external Reddit API: the fetch outcome each subreddit
produces on this run. -/
def run_all (keywords : List Str) (world : Str → FetchOutcome)
    (subreddits : List Str) : List Record × List (Str × Str) :=
  subreddits.foldl
    (fun acc name =>
      let step := run_subreddit keywords name (world name)
      (acc.1 ++ step.1, acc.2 ++ step.2.toList))
    ([], [])

theorem run_all_append (keywords : List Str) (world : Str → FetchOutcome)
    (subs : List Str) (d : List Record) (e : List (Str × Str)) :
    subs.foldl
      (fun acc name =>
        let step := run_subreddit keywords name (world name)
        (acc.1 ++ step.1, acc.2 ++ step.2.toList))
      (d, e)
    = (d ++ (run_all keywords world subs).1,
       e ++ (run_all keywords world subs).2) := by
  induction subs generalizing d e with
  | nil => simp [run_all]
  | cons s ss ih =>
      simp only [run_all, List.foldl_cons, List.nil_append] at *
      rw [ih]
      conv_rhs => rw [ih]
      simp [List.append_assoc]

/-- Characterisation of `run_all`: the collected data is the concatenation over
subreddits of the records each produced (including records a failing
subreddit appended before its exception), and the reported errors are
those of the failing subreddits, in order. -/
theorem run_all_eq (keywords : List Str) (world : Str → FetchOutcome)
    (subs : List Str) :
    run_all keywords world subs
    = (subs.flatMap (fun n => (run_subreddit keywords n (world n)).1),
       subs.flatMap (fun n => (run_subreddit keywords n (world n)).2.toList)) := by
  induction subs with
  | nil => simp [run_all]
  | cons s ss ih =>
      simp only [run_all, List.foldl_cons, List.nil_append]
      rw [run_all_append, ih]
      simp [run_all]

theorem length_process_post (keywords : List Str) (name : Str) (p : Post) :
    (process_post keywords name p).length
    = if title_matches keywords p.title then p.comments.length else 0 := by
  unfold process_post
  split <;> simp

/-- C3: in a run where no subreddit raises, the number of collected rows
equals the sum, over the posts kept by the filter among the fetched posts
of each subreddit, of the expanded comment count of that post. -/
theorem run_all_length (keywords : List Str) (world : Str → FetchOutcome)
    (subs : List Str)
    (_hok : ∀ n ∈ subs, (world n).isOk = true) :
    (run_all keywords world subs).1.length
    = (subs.map (fun n =>
        (((world n).posts.filter (fun p => title_matches keywords p.title)).map
          (fun p => p.comments.length)).sum)).sum := by
  rw [run_all_eq]
  simp only [List.length_flatMap]
  congr 1
  apply List.map_congr_left
  intro n hn
  simp only [Function.comp_apply, Function.comp]
  have h1 : (run_subreddit keywords n (world n)).1
      = (world n).posts.flatMap (process_post keywords n) := by
    cases hw : world n with
    | ok ps => simp [run_subreddit, FetchOutcome.posts]
    | failAfter ps e => simp [run_subreddit, FetchOutcome.posts]
  rw [h1]
  induction (world n).posts with
  | nil => simp
  | cons p ps ihp =>
      simp only [List.flatMap_cons, List.length_append, ihp, List.filter_cons]
      rw [length_process_post]
      split <;> simp

/-- C3 witness input: a world where subreddit "a" delivers two posts, one
matching with two comments, one not matching. -/
def c3_world : Str → FetchOutcome := fun _ =>
  .ok [⟨"keyword here".toList, "u1".toList,
        [⟨.str "c1".toList, 0⟩, ⟨.str "c2".toList, 1⟩]⟩,
       ⟨"other".toList, "u2".toList, [⟨.str "c3".toList, 2⟩]⟩]

theorem run_all_length_witness :
    (∀ n ∈ ["a".toList], (c3_world n).isOk = true)
    ∧ (run_all ["keyword".toList] c3_world ["a".toList]).1.length
      = (["a".toList].map (fun n =>
          (((c3_world n).posts.filter
              (fun p => title_matches ["keyword".toList] p.title)).map
            (fun p => p.comments.length)).sum)).sum :=
  ⟨by decide, run_all_length ["keyword".toList] c3_world ["a".toList] (by decide)⟩

/-- The exception text a fetch outcome raised, if any. -/
def FetchOutcome.error : FetchOutcome → Option Str
  | .ok _ => Option.none
  | .failAfter _ e => some e

/-- C4 counterexample input: subreddit "a" raises "boom" after one matching
post with one comment was already processed; subreddit "b" succeeds. -/
def c4_world : Str → FetchOutcome := fun n =>
  if n = "a".toList then
    .failAfter [⟨"keyword post".toList, "u".toList, [⟨.str "orphan".toList, 0⟩]⟩]
      "boom".toList
  else .ok [⟨"keyword too".toList, "v".toList, [⟨.str "fine".toList, 1⟩]⟩]

/-- C4 counterexample: on `c4_world`, subreddit "a" raises and its error is
caught and reported, yet a record appended for "a" before the exception IS
retained in the collected data — refuting the claim that no partial record
from the failed subreddit is retained. -/
theorem run_all_failed_sub_record_kept :
    (c4_world "a".toList).error = some "boom".toList
    ∧ (run_all ["keyword".toList] c4_world ["a".toList, "b".toList]).2
        = [("a".toList, "boom".toList)]
    ∧ ¬ (∀ r ∈ (run_all ["keyword".toList] c4_world
          ["a".toList, "b".toList]).1, r.subreddit ≠ "a".toList) := by
  refine ⟨by decide, by decide, ?_⟩
  intro h
  exact h ⟨.str "orphan".toList, "keyword post".toList, "u".toList,
    "a".toList, 0⟩ (by decide) (by decide)

/-- C4 amended: every per-subreddit error is caught and reported as the
pair (name, exception text), processing continues through the whole
subreddit list, and every record a subreddit appended before a failure —
partial records included — remains in the collected data. -/
theorem run_all_error_handling (keywords : List Str)
    (world : Str → FetchOutcome) (subs : List Str) :
    (run_all keywords world subs).2
      = subs.flatMap (fun n => ((run_subreddit keywords n (world n)).2).toList)
    ∧ (run_all keywords world subs).1
      = subs.flatMap (fun n => (run_subreddit keywords n (world n)).1)
    ∧ ∀ n ∈ subs, ∀ e, (world n).error = some e →
        (n, e) ∈ (run_all keywords world subs).2
        ∧ ∀ r ∈ (run_subreddit keywords n (world n)).1,
            r ∈ (run_all keywords world subs).1 := by
  have hh := run_all_eq keywords world subs
  refine ⟨by rw [hh], by rw [hh], ?_⟩
  intro n hn e he
  constructor
  · rw [hh]
    refine List.mem_flatMap.mpr ⟨n, hn, ?_⟩
    cases hw : world n with
    | ok ps => rw [hw] at he; simp [FetchOutcome.error] at he
    | failAfter ps e2 =>
        rw [hw] at he
        simp only [FetchOutcome.error, Option.some.injEq] at he
        simp [run_subreddit, hw, he]
  · intro r hr
    rw [hh]
    exact List.mem_flatMap.mpr ⟨n, hn, hr⟩

/-- C4 amended, witnessed at the counterexample world: the failing
failing subreddit has its error reported and its interrupted-run record
retained while the
following subreddit is still processed. -/
theorem run_all_error_handling_witness :
    ("a".toList, "boom".toList)
      ∈ (run_all ["keyword".toList] c4_world ["a".toList, "b".toList]).2 :=
  ((run_all_error_handling ["keyword".toList] c4_world
    ["a".toList, "b".toList]).2.2 "a".toList (by decide) "boom".toList
      (by decide)).1

/-- QUOTE_MINIMAL: a field is quoted iff it contains the delimiter, the
quote character, or a line-break character, as `pandas.to_csv` does. -/
def needs_quoting (sep : Char) (f : Str) : Bool :=
  f.any (fun c => c = sep ∨ c = '"' ∨ c = '\n' ∨ c = '\r')

/-- Double every quote character, the CSV escape inside a quoted field. -/
def escape_quotes : Str → Str
  | [] => []
  | c :: rest =>
      if c = '"' then '"' :: '"' :: escape_quotes rest
      else c :: escape_quotes rest

/-- Render one field, quoting it when QUOTE_MINIMAL requires it. -/
def render_field (sep : Char) (f : Str) : Str :=
  if needs_quoting sep f then '"' :: (escape_quotes f ++ ['"']) else f

/-- Render one row: fields joined by the delimiter. -/
def render_row (sep : Char) : List Str → Str
  | [] => []
  | [f] => render_field sep f
  | f :: fs => render_field sep f ++ sep :: render_row sep fs

/-- Render a table as `to_csv` writes it on this platform: every row,
the last included, terminated by a newline. -/
def to_csv (sep : Char) (rows : List (List Str)) : Str :=
  rows.flatMap (fun r => render_row sep r ++ ['\n'])

/-- Parse the inside of a quoted field: a doubled quote is an escaped
quote, a single quote closes the field. Returns the field and the
remaining input after the closing quote. -/
def parse_quoted : Str → Str × Str
  | [] => ([], [])
  | c :: rest =>
      if c = '"' then
        match rest with
        | [] => ([], [])
        | c2 :: rest2 =>
            if c2 = '"' then
              let p := parse_quoted rest2
              ('"' :: p.1, p.2)
            else ([], rest)
      else
        let p := parse_quoted rest
        (c :: p.1, p.2)

/-- Parse an unquoted field: everything up to the delimiter, a newline,
or the end of input. -/
def parse_bare (sep : Char) : Str → Str × Str
  | [] => ([], [])
  | c :: rest =>
      if c = sep ∨ c = '\n' then ([], c :: rest)
      else
        let p := parse_bare sep rest
        (c :: p.1, p.2)

/-- Parse one field, choosing the quoted or bare form by the first
character. -/
def parse_field (sep : Char) (s : Str) : Str × Str :=
  match s with
  | [] => ([], [])
  | c :: rest => if c = '"' then parse_quoted rest else parse_bare sep (c :: rest)

/-- Parse one record: delimiter-separated fields up to and including a
terminating newline (or the end of input). Fuel bounds the field count. -/
def parse_row_aux (sep : Char) : Nat → Str → List Str × Str
  | 0, s => ([], s)
  | fuel+1, s =>
      let p := parse_field sep s
      match p.2 with
      | [] => ([p.1], [])
      | c :: rest =>
          if c = '\n' then ([p.1], rest)
          else if c = sep then
            let q := parse_row_aux sep fuel rest
            (p.1 :: q.1, q.2)
          else ([p.1], p.2)

/-- Parse one record, with enough fuel for its input. -/
def parse_row (sep : Char) (s : Str) : List Str × Str :=
  parse_row_aux sep (s.length + 1) s

/-- Parse a sequence of newline-terminated records. Fuel bounds the
record count. -/
def parse_rows (sep : Char) : Nat → Str → List (List Str)
  | 0, _ => []
  | fuel+1, s =>
      if s = [] then []
      else
        let p := parse_row sep s
        p.1 :: parse_rows sep fuel p.2

/-- Parse a whole delimiter-separated file back into a table of fields. -/
def parse_table (sep : Char) (s : Str) : List (List Str) :=
  parse_rows sep (s.length + 1) s

theorem parse_quoted_escape (f : Str) (d : Char) (t : Str) (hd : d ≠ '"') :
    parse_quoted (escape_quotes f ++ '"' :: d :: t) = (f, d :: t) := by
  induction f with
  | nil => simp [escape_quotes, parse_quoted, hd]
  | cons c f ih =>
      by_cases hc : c = '"'
      · subst hc
        simp [escape_quotes, parse_quoted, List.append_eq, ih]
      · simp only [escape_quotes, if_neg hc, List.cons_append]
        rw [parse_quoted.eq_def]
        simp [hc, ih, List.append_eq]

theorem parse_bare_append (sep : Char) (f : Str) (d : Char) (t : Str)
    (hq : needs_quoting sep f = false) (hd : d = sep ∨ d = '\n') :
    parse_bare sep (f ++ d :: t) = (f, d :: t) := by
  induction f with
  | nil => simp [parse_bare, hd]
  | cons c f ih =>
      simp only [needs_quoting, List.any_cons, Bool.or_eq_false_iff,
        decide_eq_false_iff_not] at hq
      push_neg at hq
      obtain ⟨⟨hc1, hc2, hc3, hc4⟩, hrest⟩ := hq
      have hnc : ¬ (c = sep ∨ c = '\n') := by tauto
      simp only [List.cons_append, parse_bare, if_neg hnc, List.append_eq]
      rw [ih hrest]

theorem parse_field_render (sep : Char) (f : Str) (d : Char) (t : Str)
    (hsep : sep ≠ '"') (hd : d = sep ∨ d = '\n') :
    parse_field sep (render_field sep f ++ d :: t) = (f, d :: t) := by
  have hd2 : d ≠ '"' := by
    rcases hd with h | h <;> subst h
    · exact hsep
    · decide
  unfold render_field
  by_cases hq : needs_quoting sep f = true
  · rw [if_pos hq]
    have : ('"' :: (escape_quotes f ++ ['"'])) ++ d :: t
        = '"' :: (escape_quotes f ++ '"' :: d :: t) := by simp
    rw [this]
    simp only [parse_field, if_pos rfl]
    exact parse_quoted_escape f d t hd2
  · rw [if_neg hq]
    rw [Bool.not_eq_true] at hq
    cases f with
    | nil =>
        simp only [List.nil_append, parse_field, if_neg hd2]
        simpa [parse_bare] using parse_bare_append sep [] d t (by simp [needs_quoting]) hd
    | cons c f2 =>
        have hc : c ≠ '"' := by
          simp only [needs_quoting, List.any_cons, Bool.or_eq_false_iff,
            decide_eq_false_iff_not] at hq
          push_neg at hq
          exact hq.1.2.1
        simp only [List.cons_append, parse_field, if_neg hc]
        rw [← List.cons_append]
        exact parse_bare_append sep (c :: f2) d t hq hd

theorem parse_row_aux_render (sep : Char) (hsep : sep ≠ '"') (hsepn : sep ≠ '\n')
    (fs : List Str) :
    ∀ (f : Str) (t : Str) (fuel : Nat), fs.length < fuel →
      parse_row_aux sep fuel (render_row sep (f :: fs) ++ '\n' :: t)
        = (f :: fs, t) := by
  induction fs with
  | nil =>
      intro f t fuel hfuel
      cases fuel with
      | zero => omega
      | succ fuel =>
          simp only [render_row]
          rw [parse_row_aux]
          rw [parse_field_render sep f '\n' t hsep (Or.inr rfl)]
          simp
  | cons g gs ih =>
      intro f t fuel hfuel
      cases fuel with
      | zero => omega
      | succ fuel =>
          have hrw : render_row sep (f :: g :: gs) ++ '\n' :: t
              = render_field sep f ++ sep :: (render_row sep (g :: gs) ++ '\n' :: t) := by
            simp [render_row, List.append_assoc]
          rw [hrw, parse_row_aux]
          rw [parse_field_render sep f sep _ hsep (Or.inl rfl)]
          simp only [if_neg hsepn, if_pos rfl]
          rw [ih g _ fuel (by simp only [List.length_cons] at hfuel; omega)]
          simp

theorem render_row_length (sep : Char) (fields : List Str) :
    fields.length ≤ (render_row sep fields).length + 1 := by
  induction fields with
  | nil => simp
  | cons f fs ih =>
      cases fs with
      | nil => simp [render_row]
      | cons g gs =>
          simp only [render_row, List.length_append, List.length_cons] at *
          omega

theorem parse_row_render (sep : Char) (hsep : sep ≠ '"') (hsepn : sep ≠ '\n')
    (f : Str) (fs : List Str) (t : Str) :
    parse_row sep (render_row sep (f :: fs) ++ '\n' :: t) = (f :: fs, t) := by
  unfold parse_row
  apply parse_row_aux_render sep hsep hsepn
  have h1 := render_row_length sep (f :: fs)
  simp only [List.length_cons] at h1
  simp only [List.length_append, List.length_cons]
  omega

theorem to_csv_cons (sep : Char) (r : List Str) (rs : List (List Str)) :
    to_csv sep (r :: rs) = render_row sep r ++ '\n' :: to_csv sep rs := by
  simp [to_csv]

theorem parse_rows_to_csv (sep : Char) (hsep : sep ≠ '"') (hsepn : sep ≠ '\n')
    (rows : List (List Str)) (hrows : ∀ r ∈ rows, r ≠ []) :
    ∀ fuel, rows.length < fuel →
      parse_rows sep fuel (to_csv sep rows) = rows := by
  induction rows with
  | nil =>
      intro fuel hfuel
      cases fuel with
      | zero => simp [parse_rows]
      | succ fuel => simp [to_csv, parse_rows]
  | cons r rs ih =>
      intro fuel hfuel
      cases fuel with
      | zero => omega
      | succ fuel =>
          obtain ⟨f, fs, rfl⟩ : ∃ f fs, r = f :: fs := by
            cases r with
            | nil => exact absurd rfl (hrows [] (List.mem_cons_self _ _))
            | cons f fs => exact ⟨f, fs, rfl⟩
          rw [to_csv_cons]
          rw [parse_rows]
          have hne : render_row sep (f :: fs) ++ '\n' :: to_csv sep rs ≠ [] := by
            simp
          rw [if_neg hne]
          rw [parse_row_render sep hsep hsepn]
          show (f :: fs) :: parse_rows sep fuel (to_csv sep rs) = (f :: fs) :: rs
          rw [ih (fun r hr => hrows r (List.mem_cons_of_mem _ hr)) fuel
            (by simp only [List.length_cons] at hfuel; omega)]

theorem to_csv_length (sep : Char) (rows : List (List Str)) :
    rows.length ≤ (to_csv sep rows).length := by
  induction rows with
  | nil => simp [to_csv]
  | cons r rs ih =>
      rw [to_csv_cons]
      simp only [List.length_append, List.length_cons]
      omega

/-- Round-trip of the table serializer: parsing back what `to_csv` wrote
reproduces the table exactly, for any delimiter that is neither the quote
character nor a newline, provided every row has at least one field. -/
theorem parse_table_to_csv (sep : Char) (hsep : sep ≠ '"') (hsepn : sep ≠ '\n')
    (rows : List (List Str)) (hrows : ∀ r ∈ rows, r ≠ []) :
    parse_table sep (to_csv sep rows) = rows := by
  unfold parse_table
  apply parse_rows_to_csv sep hsep hsepn rows hrows
  have := to_csv_length sep rows
  omega

/-- The fixed column set of the first written table (line 82). -/
def COLUMNS : List Str :=
  ["text".toList, "title".toList, "url".toList, "subreddit".toList,
   "date".toList]

/-- Rendering of the timestamp cell; models the external datetime-to-text
conversion used when the date of a record is written out. -/
def date_str (t : Int) : Str := (toString t).toList

/-- The row a record contributes to the written table, in column order. -/
def fields_of (r : Record) : List Str :=
  [py_str r.text, r.title, r.url, r.subreddit, date_str r.date]

/-- The flat tabular file `to_csv` writes for the collected records
(lines 93-94): a header row of the five columns, then one row per record,
comma- or tab-separated. -/
def write_table (sep : Char) (df : List Record) : Str :=
  to_csv sep (COLUMNS :: df.map fields_of)

theorem write_table_rows_ne_nil (df : List Record) :
    ∀ r ∈ COLUMNS :: df.map fields_of, r ≠ [] := by
  intro r hr
  rcases List.mem_cons.mp hr with h | h
  · subst h; simp [COLUMNS]
  · obtain ⟨x, _, rfl⟩ := List.mem_map.mp h
    simp [fields_of]

/-- C7: parsing the written comma-separated file and the written
tab-separated file back yields exactly the written table: in particular the
same number of records and the same column set as what was written. -/
theorem write_table_roundtrip (df : List Record) :
    parse_table ',' (write_table ',' df) = COLUMNS :: df.map fields_of
    ∧ parse_table '\t' (write_table '\t' df) = COLUMNS :: df.map fields_of
    ∧ (parse_table ',' (write_table ',' df)).length = df.length + 1
    ∧ (parse_table '\t' (write_table '\t' df)).length = df.length + 1
    ∧ (parse_table ',' (write_table ',' df)).head? = some COLUMNS
    ∧ (parse_table '\t' (write_table '\t' df)).head? = some COLUMNS := by
  have h1 : parse_table ',' (write_table ',' df)
      = COLUMNS :: df.map fields_of :=
    parse_table_to_csv ',' (by decide) (by decide) _ (write_table_rows_ne_nil df)
  have h2 : parse_table '\t' (write_table '\t' df)
      = COLUMNS :: df.map fields_of :=
    parse_table_to_csv '\t' (by decide) (by decide) _ (write_table_rows_ne_nil df)
  refine ⟨h1, h2, ?_, ?_, ?_, ?_⟩ <;> simp [h1, h2]

/-- A record after the scoring and classification steps (lines 99-114):
the base record plus the four polarity scores and the derived label. -/
structure ScoredRecord where
  base : Record
  scores : Scores
  sentiment : String
deriving DecidableEq

/-- The scoring and classification pipeline over the dataframe
(lines 99-114): each comment body is converted with `str` and scored by
the external analyzer `lex` (`sid.polarity_scores` restricted to string
input), and the compound score is classified. -/
def score_records (lex : Str → Scores) (df : List Record) :
    List ScoredRecord :=
  df.map (fun r =>
    let sc := lex (py_str r.text)
    { base := r, scores := sc,
      sentiment := classify_sentiment sc.compound })

/-- The sentiment column of the scored dataframe. -/
def sentiment_labels (s : List ScoredRecord) : List String :=
  s.map (fun r => r.sentiment)

/-- The `pos_count` of the summary (line 123). -/
def pos_count (s : List ScoredRecord) : Nat :=
  (sentiment_labels s).count "positive"

/-- The `neg_count` of the summary (line 124). -/
def neg_count (s : List ScoredRecord) : Nat :=
  (sentiment_labels s).count "negative"

/-- The `neu_count` of the summary (line 125). -/
def neu_count (s : List ScoredRecord) : Nat :=
  (sentiment_labels s).count "neutral"

/-- The `total_posts` of the summary (line 122): the displayed total number of
comments analyzed. -/
def total_posts (s : List ScoredRecord) : Nat := s.length

theorem classify_sentiment_cases (q : ℚ) :
    classify_sentiment q = "positive" ∨ classify_sentiment q = "negative"
    ∨ classify_sentiment q = "neutral" := by
  unfold classify_sentiment
  split
  · exact Or.inl rfl
  · split
    · exact Or.inr (Or.inl rfl)
    · exact Or.inr (Or.inr rfl)

theorem count_three_labels (l : List String)
    (h : ∀ x ∈ l, x = "positive" ∨ x = "negative" ∨ x = "neutral") :
    l.count "positive" + l.count "negative" + l.count "neutral"
      = l.length := by
  induction l with
  | nil => simp
  | cons a l ih =>
      have ha := h a (List.mem_cons_self _ _)
      have hrest := fun x hx => h x (List.mem_cons_of_mem _ hx)
      have ihr := ih hrest
      rcases ha with ha | ha | ha <;> subst ha <;>
        simp [List.count_cons] <;> omega

/-- C9: every scored record carries exactly one of the three labels, so
the displayed positive, negative and neutral counts always sum to the
displayed total number of comments analyzed. -/
theorem sentiment_counts_sum (lex : Str → Scores) (df : List Record) :
    (∀ r ∈ score_records lex df,
      r.sentiment = "positive" ∨ r.sentiment = "negative"
      ∨ r.sentiment = "neutral")
    ∧ pos_count (score_records lex df) + neg_count (score_records lex df)
        + neu_count (score_records lex df)
        = total_posts (score_records lex df)
    ∧ total_posts (score_records lex df) = df.length := by
  have hall : ∀ r ∈ score_records lex df,
      r.sentiment = "positive" ∨ r.sentiment = "negative"
      ∨ r.sentiment = "neutral" := by
    intro r hr
    obtain ⟨x, _, rfl⟩ := List.mem_map.mp hr
    exact classify_sentiment_cases _
  refine ⟨hall, ?_, by simp [total_posts, score_records]⟩
  unfold pos_count neg_count neu_count total_posts
  have hl : ∀ x ∈ sentiment_labels (score_records lex df),
      x = "positive" ∨ x = "negative" ∨ x = "neutral" := by
    intro x hx
    obtain ⟨r, hr, rfl⟩ := List.mem_map.mp hx
    exact hall r hr
  rw [count_three_labels _ hl]
  simp [sentiment_labels]

/-- Whether an `Except` computation succeeded. -/
def except_is_ok : Except String Scores → Bool
  | .ok _ => true
  | .error _ => false

/-- Modelled contract of the external analyzer `sid.polarity_scores`: it
requires a string argument and raises on any non-string value. -/
def polarity_scores_checked (lex : Str → Scores) : PyVal → Except String Scores
  | .str s => .ok (lex s)
  | _ => .error "TypeError"

/-- The per-cell scoring expression of line 99,
`sid.polarity_scores(str(x))`: the cell is converted with `str` before the
analyzer sees it. -/
def score_cell (lex : Str → Scores) (x : PyVal) : Except String Scores :=
  polarity_scores_checked lex (.str (py_str x))

/-- C10: because the scorer converts each comment body to a string first,
the scoring step never raises: on every record, string or not (missing or
numeric included), it returns the scores the analyzer gives `str` of the cell. -/
theorem score_cell_never_raises (lex : Str → Scores) (df : List Record) :
    (∀ r ∈ df, score_cell lex r.text = .ok (lex (py_str r.text)))
    ∧ (df.map (fun r => except_is_ok (score_cell lex r.text))).all id = true
    ∧ score_cell lex .none = .ok (lex "None".toList)
    ∧ score_cell lex (.int 7) = .ok (lex "7".toList)
    ∧ polarity_scores_checked lex .none = .error "TypeError" := by
  refine ⟨fun r _ => rfl, ?_, rfl, rfl, rfl⟩
  simp [score_cell, polarity_scores_checked, except_is_ok]

/-- Result of the input validation performed when the run button is
pressed (lines 29-41). -/
inductive ValidateResult where
  | errCredentials
  | errSubreddits
  | errKeywords
  | proceed (subreddits keywords : List Str)
deriving DecidableEq

/-- Python whitespace, as stripped by `str.strip()`. -/
def is_space (c : Char) : Bool :=
  c = ' ' ∨ c = '\t' ∨ c = '\n' ∨ c = '\r' ∨ c = '\x0b' ∨ c = '\x0c'

/-- Python `str.strip()`: drop whitespace from both ends. -/
def py_strip (s : Str) : Str :=
  ((s.dropWhile is_space).reverse.dropWhile is_space).reverse

/-- Python `str.split(",")`: split on every comma, keeping empty pieces
(so the empty string splits to one empty piece). -/
def split_commas : Str → List Str
  | [] => [[]]
  | c :: rest =>
      if c = ',' then [] :: split_commas rest
      else
        match split_commas rest with
        | [] => [[c]]
        | r :: rs => (c :: r) :: rs

/-- The list-comprehension parser of lines 35-36: split on commas, strip
each piece, keep the non-empty ones. -/
def parse_list (input : Str) : List Str :=
  ((split_commas input).map py_strip).filter (fun s => ¬ s = [])

/-- The validation ladder of lines 31-41: empty credentials are checked
first, then an empty parsed subreddit list, then an empty parsed keyword
list; only past all three does the run proceed. -/
def validate (client_id client_secret user_agent subs_input keys_input : Str) :
    ValidateResult :=
  if client_id = [] ∨ client_secret = [] ∨ user_agent = [] then
    .errCredentials
  else
    let subreddits := parse_list subs_input
    let keywords := parse_list keys_input
    if subreddits = [] then .errSubreddits
    else if keywords = [] then .errKeywords
    else .proceed subreddits keywords

/-- C8: if any credential field is empty, or the parsed subreddit list is
empty, or the parsed keyword list is empty, then validation stops with the
inline error of the applicable class and the run never proceeds to
fetching, scoring, or writing. -/
theorem validate_blocks (ci cs ua si ki : Str)
    (h : ci = [] ∨ cs = [] ∨ ua = []
      ∨ parse_list si = [] ∨ parse_list ki = []) :
    (∀ subs keys, validate ci cs ua si ki ≠ .proceed subs keys)
    ∧ (ci = [] ∨ cs = [] ∨ ua = [] →
        validate ci cs ua si ki = .errCredentials)
    ∧ (¬ (ci = [] ∨ cs = [] ∨ ua = []) → parse_list si = [] →
        validate ci cs ua si ki = .errSubreddits)
    ∧ (¬ (ci = [] ∨ cs = [] ∨ ua = []) → parse_list si ≠ [] →
        parse_list ki = [] →
        validate ci cs ua si ki = .errKeywords) := by
  refine ⟨?_, ?_, ?_, ?_⟩
  · intro subs keys
    unfold validate
    split
    · simp
    · rename_i hc
      dsimp only
      split
      · simp
      · rename_i h1
        split
        · simp
        · rename_i h2
          exfalso
          rcases h with h | h | h | h | h
          · exact hc (Or.inl h)
          · exact hc (Or.inr (Or.inl h))
          · exact hc (Or.inr (Or.inr h))
          · exact h1 h
          · exact h2 h
  · intro hc
    simp [validate, hc]
  · intro hc hs
    rw [validate, if_neg hc]
    simp [hs]
  · intro hc hs hk
    rw [validate, if_neg hc]
    simp [hs, hk]

/-- C8 witness: with an empty client id and otherwise well-formed inputs,
validation reports the credentials error and does not proceed. -/
theorem validate_blocks_witness :
    ([] = ([] : Str) ∨ "x".toList = [] ∨ "x".toList = []
      ∨ parse_list "python".toList = [] ∨ parse_list "streamlit".toList = [])
    ∧ validate [] "x".toList "x".toList "python".toList "streamlit".toList
        = .errCredentials :=
  ⟨Or.inl rfl,
   (validate_blocks [] "x".toList "x".toList "python".toList
      "streamlit".toList (Or.inl rfl)).2.1 (Or.inl rfl)⟩

/-- Column set of the sentiment results file (line 118): the five base
columns plus the derived score and label columns added on lines 99-114. -/
def SCORED_COLUMNS : List Str :=
  COLUMNS ++ ["scores".toList, "compound".toList, "neg".toList,
    "neu".toList, "pos".toList, "sentiment".toList]

/-- Rendering of a rational score cell; models the external numeric
formatting. -/
def rat_str (q : ℚ) : Str :=
  (toString q.num).toList ++ '/' :: (toString q.den).toList

/-- Rendering of the scores-dict cell; models the dict formatting. -/
def scores_str (sc : Scores) : Str :=
  rat_str sc.compound ++ ';' :: (rat_str sc.neg ++ ';' ::
    (rat_str sc.neu ++ ';' :: rat_str sc.pos))

/-- The row a scored record contributes to the sentiment results file. -/
def scored_fields_of (r : ScoredRecord) : List Str :=
  fields_of r.base ++ [scores_str r.scores, rat_str r.scores.compound,
    rat_str r.scores.neg, rat_str r.scores.neu, rat_str r.scores.pos,
    r.sentiment.toList]

/-- The sentiment results file content (line 118). -/
def write_scored_table (s : List ScoredRecord) : Str :=
  to_csv ',' (SCORED_COLUMNS :: s.map scored_fields_of)

/-- Everything the output stage produces, with effects as data: the files
written to disk as (path, bytes) pairs, the informational messages shown,
the zip entries ((arcname, bytes) pairs) offered for download, and the
download file name. -/
structure PipelineOut where
  files : List (Str × Str)
  infos : List String
  zip : Option (List (Str × Str))
  zip_name : Option Str
deriving DecidableEq

/-- Model of `os.path.basename`: the part of a path after its last slash. -/
def basename (p : Str) : Str :=
  p.foldl (fun a c => if c = '/' then [] else a ++ [c]) []

/-- The zip builder reading a path back from the modelled disk: the
content at the first entry with that path (lines 180-181 read each listed
file from disk before storing it). -/
def read_file (fs : List (Str × Str)) (path : Str) : Str :=
  ((fs.find? (fun e => e.1 == path)).map Prod.snd).getD []

/-- The output stage (lines 77-190) with effects as data. `folder` is the
timestamped folder name built on line 87, `plot1` and `plot2` are the
bytes the plotting library renders for the two charts, `lex` the external
analyzer. With no collected data the stage only shows an informational
message; otherwise it writes the five files and builds the zip by reading
each listed path back from disk, naming each entry by its basename. -/
def output_stage (lex : Str → Scores) (folder plot1 plot2 : Str)
    (all_data : List Record) : PipelineOut :=
  if all_data = [] then
    { files := [],
      infos := ["No comments were found matching the specified keywords."],
      zip := Option.none, zip_name := Option.none }
  else
    let df := all_data
    let csv_path := folder ++ '/' :: (folder ++ ".csv".toList)
    let tab_path := folder ++ '/' :: (folder ++ ".tab".toList)
    let sentiment_csv := folder ++ '/' :: "sentiment_analysis_results.csv".toList
    let time_plot_path := folder ++ '/' :: "sentiment_over_time.png".toList
    let dist_plot_path := folder ++ '/' :: "sentiment_distribution.png".toList
    let scored := score_records lex df
    let files := [(csv_path, write_table ',' df),
                  (tab_path, write_table '\t' df),
                  (sentiment_csv, write_scored_table scored),
                  (time_plot_path, plot1),
                  (dist_plot_path, plot2)]
    let output_files := [csv_path, tab_path, sentiment_csv,
                         time_plot_path, dist_plot_path]
    { files := files,
      infos := ["Performing sentiment analysis...",
                "Sentiment Analysis Complete!"],
      zip := some (output_files.map (fun p => (basename p, read_file files p))),
      zip_name := some (folder ++ ".zip".toList) }

/-- C5: when the collected data is empty the output stage writes no files
and builds no zip, and the informational message is shown; the stage is a
total function of its inputs, so it cannot crash. -/
theorem output_stage_empty (lex : Str → Scores) (folder plot1 plot2 : Str) :
    (output_stage lex folder plot1 plot2 []).files = []
    ∧ (output_stage lex folder plot1 plot2 []).infos
        = ["No comments were found matching the specified keywords."]
    ∧ (output_stage lex folder plot1 plot2 []).zip = Option.none
    ∧ (output_stage lex folder plot1 plot2 []).zip_name = Option.none := by
  simp [output_stage]

theorem basename_aux (s : Str) :
    ∀ acc : Str, '/' ∉ s →
      s.foldl (fun a c => if c = '/' then [] else a ++ [c]) acc
        = acc ++ s := by
  induction s with
  | nil => intro acc _; simp
  | cons c cs ih =>
      intro acc hs
      have hc : ¬ c = '/' := fun he => hs (by simp [he])
      have hcs : '/' ∉ cs := fun hm => hs (List.mem_cons_of_mem _ hm)
      simp only [List.foldl_cons, if_neg hc]
      rw [ih (acc ++ [c]) hcs]
      simp

theorem basename_of_slash (p s : Str) (hs : '/' ∉ s) :
    basename (p ++ '/' :: s) = s := by
  unfold basename
  rw [List.foldl_append, List.foldl_cons, if_pos rfl, basename_aux s [] hs]
  simp

theorem read_file_head (p c : Str) (rest : List (Str × Str)) :
    read_file ((p, c) :: rest) p = c := by
  unfold read_file
  rw [List.find?_cons_of_pos _ (by simp)]
  rfl

theorem read_file_rest (p c q : Str) (rest : List (Str × Str)) (h : p ≠ q) :
    read_file ((p, c) :: rest) q = read_file rest q := by
  unfold read_file
  rw [List.find?_cons_of_neg _ (by simp [h])]

theorem zip_of_five (p1 p2 p3 p4 p5 c1 c2 c3 c4 c5 : Str)
    (h12 : p1 ≠ p2) (h13 : p1 ≠ p3) (h14 : p1 ≠ p4) (h15 : p1 ≠ p5)
    (h23 : p2 ≠ p3) (h24 : p2 ≠ p4) (h25 : p2 ≠ p5)
    (h34 : p3 ≠ p4) (h35 : p3 ≠ p5) (h45 : p4 ≠ p5) :
    [p1, p2, p3, p4, p5].map
      (fun p => (basename p,
        read_file [(p1, c1), (p2, c2), (p3, c3), (p4, c4), (p5, c5)] p))
    = [(p1, c1), (p2, c2), (p3, c3), (p4, c4), (p5, c5)].map
        (fun e => (basename e.1, e.2)) := by
  have r1 : read_file [(p1, c1), (p2, c2), (p3, c3), (p4, c4), (p5, c5)] p1
      = c1 := read_file_head _ _ _
  have r2 : read_file [(p1, c1), (p2, c2), (p3, c3), (p4, c4), (p5, c5)] p2
      = c2 := by
    rw [read_file_rest _ _ _ _ h12, read_file_head]
  have r3 : read_file [(p1, c1), (p2, c2), (p3, c3), (p4, c4), (p5, c5)] p3
      = c3 := by
    rw [read_file_rest _ _ _ _ h13, read_file_rest _ _ _ _ h23,
      read_file_head]
  have r4 : read_file [(p1, c1), (p2, c2), (p3, c3), (p4, c4), (p5, c5)] p4
      = c4 := by
    rw [read_file_rest _ _ _ _ h14, read_file_rest _ _ _ _ h24,
      read_file_rest _ _ _ _ h34, read_file_head]
  have r5 : read_file [(p1, c1), (p2, c2), (p3, c3), (p4, c4), (p5, c5)] p5
      = c5 := by
    rw [read_file_rest _ _ _ _ h15, read_file_rest _ _ _ _ h25,
      read_file_rest _ _ _ _ h35, read_file_rest _ _ _ _ h45,
      read_file_head]
  simp only [List.map_cons, List.map_nil, r1, r2, r3, r4, r5]

/-- C6: for every run that produces output, under the real folder naming
scheme `Data_<timestamp>` (timestamp without slashes), the produced zip
contains exactly one entry per written file — the five named artifacts,
each arcname the basename of its path — and the bytes of each entry are the
bytes read back from the corresponding file on disk. -/
theorem output_stage_zip (lex : Str → Scores) (dt plot1 plot2 : Str)
    (df : List Record) (hne : ¬ df = []) (hdt : '/' ∉ dt) :
    (output_stage lex ("Data_".toList ++ dt) plot1 plot2 df).zip
      = some ((output_stage lex ("Data_".toList ++ dt) plot1 plot2 df).files.map
          (fun e => (basename e.1, e.2)))
    ∧ (output_stage lex ("Data_".toList ++ dt) plot1 plot2 df).files.map
        (fun e => basename e.1)
      = [("Data_".toList ++ dt) ++ ".csv".toList,
         ("Data_".toList ++ dt) ++ ".tab".toList,
         "sentiment_analysis_results.csv".toList,
         "sentiment_over_time.png".toList,
         "sentiment_distribution.png".toList]
    ∧ (output_stage lex ("Data_".toList ++ dt) plot1 plot2 df).zip_name
      = some (("Data_".toList ++ dt) ++ ".zip".toList) := by
  have hA12 : ("Data_".toList ++ dt) ++ ".csv".toList
      ≠ ("Data_".toList ++ dt) ++ ".tab".toList := by
    intro h
    have h2 := List.append_cancel_left h
    simp at h2
  have hA13 : ("Data_".toList ++ dt) ++ ".csv".toList
      ≠ "sentiment_analysis_results.csv".toList := by
    intro h
    rw [List.append_assoc] at h
    simp at h
  have hA14 : ("Data_".toList ++ dt) ++ ".csv".toList
      ≠ "sentiment_over_time.png".toList := by
    intro h
    rw [List.append_assoc] at h
    simp at h
  have hA15 : ("Data_".toList ++ dt) ++ ".csv".toList
      ≠ "sentiment_distribution.png".toList := by
    intro h
    rw [List.append_assoc] at h
    simp at h
  have hA23 : ("Data_".toList ++ dt) ++ ".tab".toList
      ≠ "sentiment_analysis_results.csv".toList := by
    intro h
    rw [List.append_assoc] at h
    simp at h
  have hA24 : ("Data_".toList ++ dt) ++ ".tab".toList
      ≠ "sentiment_over_time.png".toList := by
    intro h
    rw [List.append_assoc] at h
    simp at h
  have hA25 : ("Data_".toList ++ dt) ++ ".tab".toList
      ≠ "sentiment_distribution.png".toList := by
    intro h
    rw [List.append_assoc] at h
    simp at h
  have hA34 : "sentiment_analysis_results.csv".toList
      ≠ "sentiment_over_time.png".toList := by decide
  have hA35 : "sentiment_analysis_results.csv".toList
      ≠ "sentiment_distribution.png".toList := by decide
  have hA45 : "sentiment_over_time.png".toList
      ≠ "sentiment_distribution.png".toList := by decide
  have hpath : ∀ X Y : Str, X ≠ Y →
      ("Data_".toList ++ dt) ++ '/' :: X
        ≠ ("Data_".toList ++ dt) ++ '/' :: Y := by
    intro X Y hXY h
    have h2 := List.append_cancel_left h
    injection h2 with _ h3
    exact hXY h3
  have hs1 : '/' ∉ ("Data_".toList ++ dt) ++ ".csv".toList := by
    intro hm
    rcases List.mem_append.mp hm with hm | hm
    · rcases List.mem_append.mp hm with hm | hm
      · revert hm; decide
      · exact hdt hm
    · revert hm; decide
  have hs2 : '/' ∉ ("Data_".toList ++ dt) ++ ".tab".toList := by
    intro hm
    rcases List.mem_append.mp hm with hm | hm
    · rcases List.mem_append.mp hm with hm | hm
      · revert hm; decide
      · exact hdt hm
    · revert hm; decide
  have hs3 : '/' ∉ "sentiment_analysis_results.csv".toList := by decide
  have hs4 : '/' ∉ "sentiment_over_time.png".toList := by decide
  have hs5 : '/' ∉ "sentiment_distribution.png".toList := by decide
  rw [output_stage, if_neg hne]
  dsimp only
  refine ⟨?_, ?_, rfl⟩
  · exact congrArg some
      (zip_of_five _ _ _ _ _ _ _ _ _ _
        (hpath _ _ hA12) (hpath _ _ hA13) (hpath _ _ hA14) (hpath _ _ hA15)
        (hpath _ _ hA23) (hpath _ _ hA24) (hpath _ _ hA25)
        (hpath _ _ hA34) (hpath _ _ hA35) (hpath _ _ hA45))
  · simp only [List.map_cons, List.map_nil]
    rw [basename_of_slash _ _ hs1, basename_of_slash _ _ hs2,
      basename_of_slash _ _ hs3, basename_of_slash _ _ hs4,
      basename_of_slash _ _ hs5]

/-- C6 witness: a one-record run with folder `Data_x` produces the zip
with the five artifacts. -/
theorem output_stage_zip_witness :
    (¬ ([⟨.str "hi".toList, "t".toList, "u".toList, "s".toList, 0⟩]
        = ([] : List Record)))
    ∧ ('/' ∉ "x".toList)
    ∧ (output_stage (fun _ => ⟨0, 0, 0, 0⟩) ("Data_".toList ++ "x".toList)
        "p1".toList "p2".toList
        [⟨.str "hi".toList, "t".toList, "u".toList, "s".toList, 0⟩]).zip_name
      = some (("Data_".toList ++ "x".toList) ++ ".zip".toList) :=
  ⟨by decide, by decide,
   (output_stage_zip (fun _ => ⟨0, 0, 0, 0⟩) "x".toList
      "p1".toList "p2".toList
      [⟨.str "hi".toList, "t".toList, "u".toList, "s".toList, 0⟩]
      (by decide) (by decide)).2.2⟩
